import Mathlib

/-!
Verification of the canvas-messenger browser extension core against its
specification.  The JavaScript source is shallowly embedded: each pure
helper becomes a Lean function, the stateful token observer becomes a step
function over an explicit cache state, and the network is modelled as an
explicit transport function mapping an attempt index (and, where relevant,
the token used) to the outcome of that attempt.  Timer-based delays
(backoff sleeps, inter-batch spacing) are not modelled: no claim concerns
real time, and the delay value never influences control flow.
-/

namespace CanvasMessenger

/-! ## Resilient HTTP layer (content.js, part_006: shouldRetry / withRetries / fetchWithRetry) -/

/-- A JavaScript error as the retry layer inspects it: `err?.name ===
"AbortError"` is modelled by `isAbort`, and `err?.status` (a number set on
HTTP errors, absent on network-level failures) by `status`. -/
structure JsError where
  isAbort : Bool
  status : Option Nat
deriving DecidableEq, Repr

/-- Outcome of one attempt of the wrapped callback: it either returns a
value or throws a `JsError`. -/
inductive Attempt (α : Type) where
  | ok (v : α)
  | err (e : JsError)
deriving DecidableEq, Repr

/-- content.js `shouldRetry`: abort (timeout) and missing status (network
error) are retryable, as are HTTP 429/500/502/503/504; everything else is
fatal. -/
def shouldRetry (e : JsError) : Bool :=
  if e.isAbort then true
  else
    match e.status with
    | none => true
    | some s => [429, 500, 502, 503, 504].contains s

/-- The loop body of content.js `withRetries`.  `attempt` is the current
attempt index, `fuel` the number of increments still allowed before the
`attempt === retries` break fires.  Returns the final outcome together
with the total number of attempts made (last attempt index + 1). -/
def withRetriesGo (fn : Nat → Attempt α) (attempt : Nat) : Nat → Except JsError α × Nat
  | 0 =>
    match fn attempt with
    | .ok v => (.ok v, attempt + 1)
    | .err e => (.error e, attempt + 1)
  | fuel + 1 =>
    match fn attempt with
    | .ok v => (.ok v, attempt + 1)
    | .err e =>
      if shouldRetry e then withRetriesGo fn (attempt + 1) fuel
      else (.error e, attempt + 1)

/-- content.js `withRetries(fn, {retries})`: run `fn` starting at attempt 0
with up to `retries` further attempts after retryable failures. -/
def withRetries (fn : Nat → Attempt α) (retries : Nat) : Except JsError α × Nat :=
  withRetriesGo fn 0 retries

/-- What one raw `fetch` inside `fetchWithRetry` can produce: a
network-level rejection, an abort fired by the timeout controller, or a
response carrying an HTTP status and a body. -/
inductive FetchStep (α : Type) where
  | netError
  | timeout
  | response (status : Nat) (body : α)
deriving DecidableEq, Repr

/-- The body of `fetchWithRetry`: a non-ok response (`res.ok` is status
200..299) is converted into a thrown error carrying `err.status`; network
errors and timeouts surface as errors without a status. -/
def stepToAttempt : FetchStep α → Attempt α
  | .netError => .err ⟨false, none⟩
  | .timeout => .err ⟨true, none⟩
  | .response s b =>
    if 200 ≤ s ∧ s ≤ 299 then .ok b else .err ⟨false, some s⟩

/-- content.js `fetchWithRetry(url, {retries})`: the raw fetch per attempt
is given by `transport`; the whole call is `withRetries` over it. -/
def fetchWithRetry (transport : Nat → FetchStep α) (retries : Nat) :
    Except JsError α × Nat :=
  withRetries (fun i => stepToAttempt (transport i)) retries

/-! ## Chunking and recipient bookkeeping (part_006) -/

/-- part_006: `const MAX_PER_REQUEST = 90`. -/
def MAX_PER_REQUEST : Nat := 90

/-- part_006 `chunk(arr, n)`: slices of size `n` taken left to right.  The
JavaScript loop (`for (let i = 0; i < arr.length; i += n)`) never
terminates when `n = 0` and `arr` is non-empty; the model returns `[]`
there, outside the domain every caller uses (`n` is always 90 or 100). -/
def chunk : List α → Nat → List (List α)
  | [], _ => []
  | _ :: _, 0 => []
  | a :: rest, n + 1 =>
    (a :: rest).take (n + 1) :: chunk ((a :: rest).drop (n + 1)) (n + 1)
termination_by arr _ => arr.length
decreasing_by
  simp
  omega

/-- Accumulator pass behind `uniqueInts`: keep the first occurrence of each
element, dropping anything already seen (JavaScript `new Set` iteration
order). -/
def dedupFirst (seen : List Int) : List Int → List Int
  | [] => []
  | x :: xs => if x ∈ seen then dedupFirst seen xs else x :: dedupFirst (x :: seen) xs

/-- part_006 `uniqueInts`: `Array.from(new Set(arr.map(Number).filter(Number.isFinite)))`.
The model works on integers, so the `Number` coercion and finiteness
filter are identities and only the first-occurrence deduplication
remains. -/
def uniqueInts (arr : List Int) : List Int := dedupFirst [] arr

/-! ## postConversation (part_006: guarded loop; part_005: single 422 refresh) -/

/-- Errors `postConversation` (part_006) can throw: the two local guard
errors thrown before any network activity, or an HTTP/network error from
the POST itself. -/
inductive PostErr where
  | noRecipients
  | tooMany
  | http (e : JsError)
deriving DecidableEq, Repr

/-- Token used on a given attempt of the part_006 retry loop: attempt 0
uses the caller-provided token, later attempts use the freshest observer
token (`fresh || csrfToken`). -/
def postAttemptToken (latest : Nat → Option String) (csrfToken : String)
    (attempt : Nat) : String :=
  if attempt = 0 then csrfToken else (latest attempt).getD csrfToken

/-- The `while (attempt < 3)` loop of part_006 `postConversation`: each
attempt posts with `postAttemptToken`; a failure continues the loop only
when it is retryable or has status 422, and only while fuel remains.
Returns the outcome and the number of POST attempts made. -/
def postLoop (transport : Nat → String → Attempt α) (latest : Nat → Option String)
    (csrfToken : String) (attempt : Nat) : Nat → Except JsError α × Nat
  | 0 =>
    match transport attempt (postAttemptToken latest csrfToken attempt) with
    | .ok v => (.ok v, attempt + 1)
    | .err e => (.error e, attempt + 1)
  | fuel + 1 =>
    match transport attempt (postAttemptToken latest csrfToken attempt) with
    | .ok v => (.ok v, attempt + 1)
    | .err e =>
      if shouldRetry e || e.status == some 422 then
        postLoop transport latest csrfToken (attempt + 1) fuel
      else (.error e, attempt + 1)

/-- part_006 `postConversation`: rejects an empty recipient list and a
list over `MAX_PER_REQUEST` locally (0 network attempts), then runs the
3-attempt loop. -/
def postConversation (recipientIds : List Int) (csrfToken : String)
    (transport : Nat → String → Attempt α) (latest : Nat → Option String) :
    Except PostErr α × Nat :=
  if recipientIds = [] then (.error .noRecipients, 0)
  else if MAX_PER_REQUEST < recipientIds.length then (.error .tooMany, 0)
  else
    match postLoop transport latest csrfToken 0 2 with
    | (.ok v, n) => (.ok v, n)
    | (.error e, n) => (.error (.http e), n)

/-- Convert the outcome of a single attempt into the result
`postConversation5` returns when that attempt is its last. -/
def attemptResult : Attempt α → Except JsError α
  | .ok v => .ok v
  | .err e => .error e

/-- part_005 `postConversation`: one POST with the provided token; on a
422 rejection, fetch the freshest observer token once and retry exactly
once with it, but only when it exists and differs from the token already
used; any other failure, or a missing/unchanged fresh token, escalates
immediately.  Returns the outcome and the number of POST attempts. -/
def postConversation5 (transport : Nat → String → Attempt α)
    (latest : Option String) (csrfToken : String) : Except JsError α × Nat :=
  match transport 0 csrfToken with
  | .ok v => (.ok v, 1)
  | .err e =>
    if e.status = some 422 then
      match latest with
      | some fresh =>
        if fresh ≠ csrfToken then (attemptResult (transport 1 fresh), 2)
        else (.error e, 1)
      | none => (.error e, 1)
    else (.error e, 1)

/-! ## Token observer (part_000: background CSRF cache) -/

/-- One cached token slot (`{ value, seenAt }` in `storage.local`). -/
structure TokenEntry where
  value : String
  seenAt : Nat
deriving DecidableEq, Repr

/-- The `storage.local` CSRF cache: the Header-source slot (`csrfHeader`)
and the Cookie-source slot (`csrfCookie`). -/
structure CsrfCache where
  csrfHeader : Option TokenEntry
  csrfCookie : Option TokenEntry
deriving DecidableEq, Repr

/-- Events the background observer reacts to, at the level of the value
each listener extracts: a non-empty `X-CSRF-Token` request header on an
/api/ URL (the listener stores `found` only when it is truthy), a
`_csrf_token` value captured from a Set-Cookie header after URL-decoding
(the regex capture `[^;]+` is non-empty and URL-decoding a non-empty
string yields a non-empty string, hence the same truthiness guard), and
the CLEAR_CSRF_CACHE command. -/
inductive ObsEvent where
  | headerSeen (value : String) (t : Nat)
  | cookieSeen (value : String) (t : Nat)
  | clearCache
deriving DecidableEq, Repr

/-- One observer transition: overwrite-latest-wins per source, clear
removes both slots. -/
def observerStep (st : CsrfCache) : ObsEvent → CsrfCache
  | .headerSeen v t => if v ≠ "" then { st with csrfHeader := some ⟨v, t⟩ } else st
  | .cookieSeen v t => if v ≠ "" then { st with csrfCookie := some ⟨v, t⟩ } else st
  | .clearCache => ⟨none, none⟩

/-- The cache after a sequence of observed events, starting empty. -/
def runObserver (evs : List ObsEvent) : CsrfCache :=
  evs.foldl observerStep ⟨none, none⟩

/-- Cookie half of the chosen-token expression:
`(data.csrfCookie && data.csrfCookie.value) || null` with JavaScript
string truthiness. -/
def cookieChosen (st : CsrfCache) : Option String :=
  match st.csrfCookie with
  | some c => if c.value = "" then none else some c.value
  | none => none

/-- part_000 GET_LATEST_CSRF handler: `(csrfHeader && csrfHeader.value) ||
(csrfCookie && csrfCookie.value) || null`. -/
def getLatestCsrf (st : CsrfCache) : Option String :=
  match st.csrfHeader with
  | some h => if h.value = "" then cookieChosen st else some h.value
  | none => cookieChosen st

/-! ## Character-level string helpers

Lean string primitives (`String.toLower`, `String.trim`, regex-like
replacement) do not reduce inside the kernel, so the JavaScript string
pipeline is embedded over `List Char` with `String.mk`/`String.toList` at
the boundaries. -/

/-- The apostrophe character (code point 39), used by the
`spring\s*'?([0-9]{2})\b` pattern. -/
def aposChar : Char := Char.ofNat 39

/-- JavaScript word character for `\b` boundaries: `[A-Za-z0-9_]`. -/
def isWordChar (c : Char) : Bool := c.isAlphanum || c = '_'

/-- Does `pat` occur at the start of `l`? -/
def startsWithL : List Char → List Char → Bool
  | _, [] => true
  | [], _ :: _ => false
  | c :: cs, p :: ps => c = p && startsWithL cs ps

/-- Does `pat` occur anywhere in `l` (JavaScript `/pat/.test(s)` for a
literal pattern)? -/
def containsSubL (l pat : List Char) : Bool :=
  match l with
  | [] => startsWithL [] pat
  | _ :: cs => startsWithL l pat || containsSubL cs pat

/-- String-level wrapper for `containsSubL`. -/
def containsSub (s pat : String) : Bool := containsSubL s.toList pat.toList

/-- Lowercase a string character by character (JavaScript
`toLowerCase` on the ASCII range the source manipulates). -/
def lowerL (l : List Char) : List Char := l.map Char.toLower

/-- JavaScript `String.prototype.trim`: drop whitespace from both ends. -/
def trimL (l : List Char) : List Char :=
  ((l.dropWhile Char.isWhitespace).reverse.dropWhile Char.isWhitespace).reverse

/-! ## Term parsing (part_006: normalizeSeasonToken / parseSeasonYear / isTermMatch) -/

/-- part_006 `normalizeSeasonToken`: map many season variants to a
canonical token by case-insensitive substring tests, in source order;
`null`/empty input and unrecognized input give `null`. -/
def normalizeSeasonToken (s : Option String) : Option String :=
  match s with
  | none => none
  | some str =>
    if str = "" then none
    else
      let t := String.mk (lowerL str.toList)
      if containsSub t "fall" || containsSub t "fa" || containsSub t "autumn" then some "fall"
      else if containsSub t "spring" || containsSub t "sp" then some "spring"
      else if containsSub t "winter" || containsSub t "wi" then some "winter"
      else if containsSub t "summer" || containsSub t "su" || containsSub t "sm" then some "summer"
      else none

/-- The two-letter season codes `(fa|sp|su|sm|wi)` of the compact
patterns. -/
def seasonCodes : List String := ["fa", "sp", "su", "sm", "wi"]

/-- Try to match one alternative `w` at the start of `l`, requiring a `\b`
boundary after it (next char not a word char); returns the remainder. -/
def tryWordAt (l : List Char) (w : String) : Option (List Char) :=
  if startsWithL l w.toList then
    let rest := l.drop w.toList.length
    match rest with
    | [] => some rest
    | c :: _ => if isWordChar c then none else some rest
  else none

/-- Try the alternatives in order at the start of `l` (regex alternation
order), returning the matched word and the remainder. -/
def tryWords (l : List Char) : List String → Option (String × List Char)
  | [] => none
  | w :: ws =>
    match tryWordAt l w with
    | some rest => some (w, rest)
    | none => tryWords l ws

/-- Like `tryWords` but with no boundary requirement after the word, for
the season code of pattern 2 (`(fa|sp|su|sm|wi)` directly followed by the
optional gap and the year, as in `"fa2025"`). -/
def tryWordsNoB (l : List Char) : List String → Option (String × List Char)
  | [] => none
  | w :: ws =>
    if startsWithL l w.toList then some (w, l.drop w.toList.length)
    else tryWordsNoB l ws

/-- Parse a four-digit year `20\d{2}|19\d{2}` at the start of `l`,
returning the year and the remainder (no boundary check here). -/
def tryYear4 : List Char → Option (Int × List Char)
  | c1 :: c2 :: c3 :: c4 :: rest =>
    if ((c1 = '2' ∧ c2 = '0') ∨ (c1 = '1' ∧ c2 = '9')) ∧ c3.isDigit ∧ c4.isDigit then
      some ((1000 * (c1.toNat - 48) + 100 * (c2.toNat - 48) +
        10 * (c3.toNat - 48) + (c4.toNat - 48) : Nat), rest)
    else none
  | _ => none

/-- The optional gap `(?:\s*[-_ ]?)?` between year and season code: skip
whitespace greedily, then optionally a single `-` or `_` (a space there is
subsumed by the greedy skip). -/
def gapPositions (l : List Char) : List (List Char) :=
  let l1 := l.dropWhile Char.isWhitespace
  match l1 with
  | c :: rest => if c = '-' ∨ c = '_' then [l1, rest] else [l1]
  | [] => [l1]

/-- Try pattern 1, `(20\d{2}|19\d{2})(?:\s*[-_ ]?)?(fa|sp|su|sm|wi)\b`, at
the start of `l` (the `\b` before the year is checked by the caller). -/
def tryYearSeasonAt (l : List Char) : Option (Int × String) :=
  match tryYear4 l with
  | none => none
  | some (y, rest) =>
    (gapPositions rest).firstM (fun pos =>
      match tryWords pos seasonCodes with
      | some (cd, _) => some (y, cd)
      | none => none)

/-- Try pattern 2, `(fa|sp|su|sm|wi)(?:\s*[-_ ]?)?(20\d{2}|19\d{2})\b`, at
the start of `l`. -/
def trySeasonYearAt (l : List Char) : Option (String × Int) :=
  match tryWordsNoB l seasonCodes with
  | none => none
  | some (cd, rest0) =>
    (gapPositions rest0).firstM (fun pos =>
      match tryYear4 pos with
      | none => none
      | some (y, rest) =>
        match rest with
        | [] => some (cd, y)
        | c :: _ => if isWordChar c then none else some (cd, y))

/-- Leftmost-match scan: at each position whose predecessor is not a word
character (`\b`), try the position matcher; advance one character on
failure. -/
def scanFor (tryAt : List Char → Option β) : Bool → List Char → Option β
  | _, [] => none
  | prevWord, l@(c :: rest) =>
    match if prevWord then none else tryAt l with
    | some r => some r
    | none => scanFor tryAt (isWordChar c) rest

/-- The season/year pair `parseSeasonYear` produces (season is a canonical
token string, both fields nullable). -/
structure SeasonYear where
  season : Option String
  year : Option Int
deriving DecidableEq, Repr

/-- The word alternation of the generic pattern 3:
`(fall|autumn|spring|winter|summer|fa|sp|su|sm|wi)`. -/
def seasonWords : List String :=
  ["fall", "autumn", "spring", "winter", "summer", "fa", "sp", "su", "sm", "wi"]

/-- The generic fallback of `parseSeasonYear`: the first recognized
standalone season word (`\b(fall|autumn|spring|winter|summer|fa|sp|su|sm|wi)\b`)
and the first standalone four-digit year (`\b(20\d{2}|19\d{2})\b`),
matched independently. -/
def parseSeasonYearRest (chars : List Char) : SeasonYear :=
  let seasonMatch := scanFor (fun l => (tryWords l seasonWords).map Prod.fst) false chars
  let yearMatch := scanFor (fun l =>
    match tryYear4 l with
    | some (y, rest) =>
      match rest with
      | [] => some y
      | c :: _ => if isWordChar c then none else some y
    | none => none) false chars
  ⟨normalizeSeasonToken seasonMatch, yearMatch⟩

/-- part_006 `parseSeasonYear`: compact `year+code` and `code+year`
patterns first (each returns only when the season token normalizes and a
year was read, mirroring `if (season && year) return`; a 19xx/20xx year
is never zero so the year test is the `season` test alone), then the
generic fallback; falsy labels parse to nothing. -/
def parseSeasonYear (label : String) : SeasonYear :=
  if label = "" then ⟨none, none⟩
  else
    let chars := lowerL (trimL label.toList)
    let p1 :=
      match scanFor tryYearSeasonAt false chars with
      | some (y, cd) =>
        match normalizeSeasonToken (some cd) with
        | some season => some (⟨some season, some y⟩ : SeasonYear)
        | none => none
      | none => none
    match p1 with
    | some r => r
    | none =>
      let p2 :=
        match scanFor trySeasonYearAt false chars with
        | some (cd, y) =>
          match normalizeSeasonToken (some cd) with
          | some season => some (⟨some season, some y⟩ : SeasonYear)
          | none => none
        | none => none
      match p2 with
      | some r => r
      | none => parseSeasonYearRest chars

/-- A date as `isTermMatch` inspects it: `getFullYear()` and
`getMonth()` (0 = January).  A falsy `start_at`/`end_at` field is `none`;
an unparseable date string would give an Invalid Date whose NaN year
fails every `=== want.year` comparison, so it behaves like `none` here
too. -/
structure DateYM where
  year : Int
  month : Nat
deriving DecidableEq, Repr

/-- The course fields `isTermMatch` reads (`enrollment_term.name`,
`term.name`, `name`, `start_at`, `end_at`). -/
structure Course where
  name : Option String
  enrollment_term_name : Option String
  term_name : Option String
  start_at : Option DateYM
  end_at : Option DateYM
deriving DecidableEq, Repr

/-- JavaScript `a || b` on an optional string: an absent or empty string
falls through to the alternative. -/
def jsOr (a : Option String) (b : String) : String :=
  match a with
  | some s => if s = "" then b else s
  | none => b

/-- The season/date window of the `start` branch of `isTermMatch`
(part_006 lines 157-163). -/
def startMonthWindow (season : String) (m : Nat) : Bool :=
  if season = "spring" then decide (m ≤ 5)
  else if season = "summer" then decide (4 ≤ m ∧ m ≤ 8)
  else if season = "fall" then decide (7 ≤ m ∧ m ≤ 11)
  else if season = "winter" then decide (m = 11 ∨ m ≤ 1)
  else false

/-- The season/date window of the `end` branch of `isTermMatch`
(part_006 lines 164-170). -/
def endMonthWindow (season : String) (m : Nat) : Bool :=
  if season = "spring" then decide (m ≤ 6)
  else if season = "summer" then decide (4 ≤ m ∧ m ≤ 9)
  else if season = "fall" then decide (8 ≤ m ∧ m ≤ 11)
  else if season = "winter" then decide (m = 11 ∨ m ≤ 1)
  else false

/-- part_006 `isTermMatch`: an unparseable requested label is no filter;
otherwise compare parsed season and year of the course term label (term
name, else course name), falling back to start/end date windows; exclude
when nothing proves a match.  Inside the `start` branch one of the four
season tests always returns, so the `end` branch is reached only when
`start` is absent or its year differs. -/
def isTermMatch (course : Course) (wantedLabel : String) : Bool :=
  let want := parseSeasonYear wantedLabel
  match want.season, want.year with
  | some ws, some wy =>
    let termStr := jsOr course.enrollment_term_name
      (jsOr course.term_name (jsOr course.name ""))
    let have_ := parseSeasonYear termStr
    match have_.season, have_.year with
    | some hs, some hy => hs = ws && hy = wy
    | _, _ =>
      match course.start_at with
      | some d =>
        if d.year = wy then startMonthWindow ws d.month
        else
          match course.end_at with
          | some e => if e.year = wy then endMonthWindow ws e.month else false
          | none => false
      | none =>
        match course.end_at with
        | some e => if e.year = wy then endMonthWindow ws e.month else false
        | none => false
  | _, _ => true

/-! ## Term-key canonicalization (popup.js `toTermKey`) -/

/-- Match `spring\s*'?([0-9]{2})\b` at the start of the list: the literal
word, greedy whitespace, an optional apostrophe, exactly two digits, and
a word boundary; returns the two captured digits and the remainder after
the match. -/
def trySpringYY (l : List Char) : Option (Char × Char × List Char) :=
  if startsWithL l ['s', 'p', 'r', 'i', 'n', 'g'] then
    let afterWs := (l.drop 6).dropWhile Char.isWhitespace
    let afterQuote :=
      match afterWs with
      | q :: qs => if q = aposChar then qs else afterWs
      | [] => afterWs
    match afterQuote with
    | d1 :: d2 :: rest =>
      if d1.isDigit ∧ d2.isDigit then
        match rest with
        | [] => some (d1, d2, rest)
        | c :: _ => if isWordChar c then none else some (d1, d2, rest)
      else none
    | _ => none
  else none

/-- The scan of the global replacement
`replace(/spring\s*'?([0-9]{2})\b/g, "spring 20$1")`: at each position
try the pattern; on a match emit `spring 20` plus the two digits and
continue after the match, otherwise copy one character and move on.  A
match consumes at least the six characters of `spring`, so fuel equal to
the input length (each step consumes at least one character and one unit
of fuel) makes the zero-fuel branch unreachable. -/
def replaceSpringYYGo : Nat → List Char → List Char
  | 0, l => l
  | _ + 1, [] => []
  | fuel + 1, l@(c :: rest) =>
    match trySpringYY l with
    | some (d1, d2, after) =>
      's' :: 'p' :: 'r' :: 'i' :: 'n' :: 'g' :: ' ' :: '2' :: '0' :: d1 :: d2 ::
        replaceSpringYYGo fuel after
    | none => c :: replaceSpringYYGo fuel rest

/-- First step of `toTermKey` after trim/lowercase: expand two-digit
`spring` years to `spring 20YY`. -/
def replaceSpringYY (l : List Char) : List Char := replaceSpringYYGo l.length l

/-- `replace(/[^a-z0-9]+/g, "-")`: collapse every maximal run of
characters outside `[a-z0-9]` into a single hyphen.  Applied after
lowercasing, so the class is exactly the source one. -/
def isKeyChar (c : Char) : Bool := ('a' ≤ c ∧ c ≤ 'z') ∨ ('0' ≤ c ∧ c ≤ '9')

/-- The hyphen-collapsing pass of `toTermKey`, one character at a time:
`inRun` records whether the previous character already contributed the
hyphen for the current non-alphanumeric run. -/
def hyphenateGo : Bool → List Char → List Char
  | _, [] => []
  | inRun, c :: rest =>
    if isKeyChar c then c :: hyphenateGo false rest
    else if inRun then hyphenateGo true rest
    else '-' :: hyphenateGo true rest

/-- The hyphen-collapsing pass of `toTermKey`. -/
def hyphenateRuns (l : List Char) : List Char := hyphenateGo false l

/-- `replace(/^-+|-+$/g, "")`: strip leading and trailing hyphens. -/
def stripEdgeHyphens (l : List Char) : List Char :=
  ((l.dropWhile (· = '-')).reverse.dropWhile (· = '-')).reverse

/-- popup.js `toTermKey`: trim, lowercase, expand `spring YY`
abbreviations, collapse non-alphanumeric runs to hyphens, strip edge
hyphens. -/
def toTermKey (label : String) : String :=
  String.mk (stripEdgeHyphens (hyphenateRuns (replaceSpringYY (lowerL (trimL label.toList)))))

/-- Modelled from the spec: the canonicalization as 03 DATA MODEL words
it — "the trimmed, lowercased label with every run of non-alphanumeric
characters replaced by a hyphen and leading/trailing hyphens stripped" —
with no mention of the two-digit spring-year expansion the source
performs first.  Kept separate to compare against `toTermKey`. -/
def specTermKey (label : String) : String :=
  String.mk (stripEdgeHyphens (hyphenateRuns (lowerL (trimL label.toList))))

/-! ## Active-student roster (part_006 `fetchStudentUserIdsForCourse`) -/

/-- The user fields the roster filter reads.  `id` is `some n` when
`Number(u.id)` is finite (the `Number.isFinite` guard), `none`
otherwise; `name` is `some s` when the field is a string. -/
structure CanvasUser where
  id : Option Int
  sis_user_id : Option String
  name : Option String
deriving DecidableEq, Repr

/-- The `/test student/i` test on a user name: case-insensitive substring
search for `test student`. -/
def matchesTestStudent (n : String) : Bool :=
  containsSubL (lowerL n.toList) "test student".toList

/-- The row filter of part_006 `fetchStudentUserIdsForCourse`: drop rows
without a finite numeric id, the caller (`myId != null && uid === myId`),
rows with `sis_user_id === "test_student"`, and rows whose name matches
`/test student/i`. -/
def keepStudent (myId : Option Int) (u : CanvasUser) : Bool :=
  match u.id with
  | none => false
  | some uid =>
    if myId = some uid then false
    else if u.sis_user_id = some "test_student" then false
    else
      match u.name with
      | some n => !matchesTestStudent n
      | none => true

/-- part_006 `fetchStudentUserIdsForCourse` after the paginated rows have
been fetched: filter, map to numeric ids, deduplicate keeping first
occurrences.  `myId` is the computed `Number(me.id)` (null when the
profile fetch failed or the id was falsy). -/
def fetchStudentUserIdsForCourse (myId : Option Int) (rows : List CanvasUser) : List Int :=
  uniqueInts ((rows.filter (keepStudent myId)).filterMap (fun u => u.id))

/-- part_006 `sendLinkToCourseStudents` batch plan: deduplicate the
roster ids once more and cut into `MAX_PER_REQUEST`-sized chunks. -/
def planBatches (ids : List Int) : List (List Int) :=
  chunk (uniqueInts ids) MAX_PER_REQUEST

/-! ## Popup orchestration (popup.js `handleSendLinkForCourse`) -/

/-- Outcome of one `claimCourse` RPC as the popup loop sees it: the call
threw (caught and skipped), returned no row (`rows?.[0] || null`), or
returned `{ id, already_exists }`. -/
inductive ClaimOutcome where
  | threw
  | nullRow
  | row (id : Nat) (already_exists : Bool)
deriving DecidableEq, Repr

/-- The SEND_LINK_TO_COURSE response: `{ok: false, error}` (or a missing
response) versus `{ok: true, totalRecipients, chunks}`. -/
inductive SendResp where
  | failRes (error : Option String)
  | okRes (totalRecipients chunks : Nat)
deriving DecidableEq, Repr

/-- The external world one `handleSendLinkForCourse` run interacts with:
the FETCH_SECTIONS reply (section ids; `none` = not ok), the
`getCourseSends` rows (their `section_id` fields; `none` = the query
threw), the claim outcome per section id, the chosen CSRF token
(`csrfResp?.csrf`), the send reply, the `markSent` outcome per claim id
(`false` = the RPC threw), and the `releaseClaim` outcome per claim id
(`false` = the RPC threw; swallowed by the source). -/
structure PopupEnv where
  sections : Option (List Int)
  dbRows : Option (List (Option Int))
  claimFn : Int → ClaimOutcome
  csrf : Option String
  sendResp : SendResp
  markFn : Nat → Bool
  releaseFn : Nat → Bool

/-- How one `handleSendLinkForCourse` run ends. -/
inductive RunResult where
  | sectionsError
  | dbError
  | alreadySentAll
  | nothingToSend
  | missingCsrf
  | sendFailed (msg : Option String)
  | markSentError (claimId : Nat)
  | done (totalRecipients chunks : Nat)
deriving DecidableEq, Repr

/-- The externally visible actions of one run: whether the
SEND_LINK_TO_COURSE message was dispatched, which claim ids had a
release attempted, and which claim ids had a markSent attempted, in
order. -/
structure PopupTrace where
  sendCalled : Bool
  releaseAttempts : List Nat
  markAttempts : List Nat
deriving DecidableEq, Repr

/-- `collectRemainingSectionIds`: the full section-id list (or the single
course-wide sentinel 0 when the course has no sections) minus the ids
already present in the sends table (`section_id === null` canonicalized
to 0). -/
def remainingSectionIds (sections : List Int) (dbRows : List (Option Int)) : List Int :=
  let sectionIds := if sections = [] then [0] else sections
  let claimed := dbRows.map (fun r => r.getD 0)
  sectionIds.filter (fun id => !claimed.contains id)

/-- The claim loop: claim each remaining section id sequentially, keeping
`(sectionId, claimId)` only for rows this run actually won
(`claim && !claim.already_exists`); thrown claims are skipped. -/
def wonClaims (claimFn : Int → ClaimOutcome) (remaining : List Int) : List (Int × Nat) :=
  remaining.filterMap (fun sid =>
    match claimFn sid with
    | .row cid false => some (sid, cid)
    | _ => none)

/-- The sequential `markSent` loop: attempt each claim in order, stopping
at the first RPC that throws.  Returns the claim ids attempted and the
claim id that failed, if any. -/
def markSentLoop (markFn : Nat → Bool) : List (Int × Nat) → List Nat × Option Nat
  | [] => ([], none)
  | (_, cid) :: rest =>
    if markFn cid then
      let (attempted, failed) := markSentLoop markFn rest
      (cid :: attempted, failed)
    else ([cid], some cid)

/-- popup.js `handleSendLinkForCourse` as one run over `PopupEnv`:
compute remaining sections, return early when none remain or no claim
was won, fail fast on a missing token, send once, release every won
claim (best-effort) and surface the error when the send failed, else
mark every won claim sent. -/
def handleSendLinkForCourse (env : PopupEnv) : RunResult × PopupTrace :=
  match env.sections with
  | none => (.sectionsError, ⟨false, [], []⟩)
  | some sections =>
    match env.dbRows with
    | none => (.dbError, ⟨false, [], []⟩)
    | some dbRows =>
      let remaining := remainingSectionIds sections dbRows
      if remaining = [] then (.alreadySentAll, ⟨false, [], []⟩)
      else
        let claims := wonClaims env.claimFn remaining
        if claims = [] then (.nothingToSend, ⟨false, [], []⟩)
        else
          match env.csrf with
          | none => (.missingCsrf, ⟨false, [], []⟩)
          | some _ =>
            match env.sendResp with
            | .failRes msg =>
              (.sendFailed msg, ⟨true, claims.map (fun c => c.2), []⟩)
            | .okRes totalRecipients chunks =>
              match markSentLoop env.markFn claims with
              | (attempted, some failedId) =>
                (.markSentError failedId, ⟨true, [], attempted⟩)
              | (attempted, none) =>
                (.done totalRecipients chunks, ⟨true, [], attempted⟩)

/-- Summary view of a run result as the spec words it
(`{totalRecipients, batchCount}`): a run that ends before any send
reports zero for both. -/
def runSummary : RunResult → Nat × Nat
  | .done totalRecipients chunks => (totalRecipients, chunks)
  | _ => (0, 0)

/-! ## Theorems -/

theorem withRetriesGo_zero_ok (fn : Nat → Attempt α) (attempt : Nat) (v : α)
    (h : fn attempt = .ok v) :
    withRetriesGo fn attempt 0 = (.ok v, attempt + 1) := by
  simp only [withRetriesGo, h]

theorem withRetriesGo_zero_err (fn : Nat → Attempt α) (attempt : Nat) (e : JsError)
    (h : fn attempt = .err e) :
    withRetriesGo fn attempt 0 = (.error e, attempt + 1) := by
  simp only [withRetriesGo, h]

theorem withRetriesGo_succ_ok (fn : Nat → Attempt α) (attempt fuel : Nat) (v : α)
    (h : fn attempt = .ok v) :
    withRetriesGo fn attempt (fuel + 1) = (.ok v, attempt + 1) := by
  simp only [withRetriesGo, h]

theorem withRetriesGo_succ_retry (fn : Nat → Attempt α) (attempt fuel : Nat) (e : JsError)
    (h : fn attempt = .err e) (hr : shouldRetry e = true) :
    withRetriesGo fn attempt (fuel + 1) = withRetriesGo fn (attempt + 1) fuel := by
  simp only [withRetriesGo, h, hr, if_true]

theorem withRetriesGo_succ_stop (fn : Nat → Attempt α) (attempt fuel : Nat) (e : JsError)
    (h : fn attempt = .err e) (hr : shouldRetry e = false) :
    withRetriesGo fn attempt (fuel + 1) = (.error e, attempt + 1) := by
  simp only [withRetriesGo, h, hr]
  simp

theorem withRetriesGo_ge (fn : Nat → Attempt α) (fuel : Nat) :
    ∀ attempt, attempt + 1 ≤ (withRetriesGo fn attempt fuel).2 := by
  induction fuel with
  | zero =>
    intro attempt
    cases h : fn attempt with
    | ok v => rw [withRetriesGo_zero_ok fn attempt v h]
    | err e => rw [withRetriesGo_zero_err fn attempt e h]
  | succ fuel ih =>
    intro attempt
    cases h : fn attempt with
    | ok v => rw [withRetriesGo_succ_ok fn attempt fuel v h]
    | err e =>
      cases hr : shouldRetry e with
      | true =>
        rw [withRetriesGo_succ_retry fn attempt fuel e h hr]
        have h2 := ih (attempt + 1)
        omega
      | false => rw [withRetriesGo_succ_stop fn attempt fuel e h hr]

theorem withRetriesGo_le (fn : Nat → Attempt α) (fuel : Nat) :
    ∀ attempt, (withRetriesGo fn attempt fuel).2 ≤ attempt + fuel + 1 := by
  induction fuel with
  | zero =>
    intro attempt
    cases h : fn attempt with
    | ok v => rw [withRetriesGo_zero_ok fn attempt v h]
    | err e => rw [withRetriesGo_zero_err fn attempt e h]
  | succ fuel ih =>
    intro attempt
    cases h : fn attempt with
    | ok v =>
      rw [withRetriesGo_succ_ok fn attempt fuel v h]
      omega
    | err e =>
      cases hr : shouldRetry e with
      | true =>
        rw [withRetriesGo_succ_retry fn attempt fuel e h hr]
        have h2 := ih (attempt + 1)
        omega
      | false =>
        rw [withRetriesGo_succ_stop fn attempt fuel e h hr]
        omega

theorem withRetriesGo_mid (fn : Nat → Attempt α) (fuel : Nat) :
    ∀ attempt i, attempt ≤ i → i + 1 < (withRetriesGo fn attempt fuel).2 →
      ∃ e, fn i = .err e ∧ shouldRetry e = true := by
  induction fuel with
  | zero =>
    intro attempt i h1 h2
    cases h : fn attempt with
    | ok v => rw [withRetriesGo_zero_ok fn attempt v h] at h2; simp at h2; omega
    | err e => rw [withRetriesGo_zero_err fn attempt e h] at h2; simp at h2; omega
  | succ fuel ih =>
    intro attempt i h1 h2
    cases h : fn attempt with
    | ok v =>
      rw [withRetriesGo_succ_ok fn attempt fuel v h] at h2
      simp at h2
      omega
    | err e =>
      cases hr : shouldRetry e with
      | true =>
        rw [withRetriesGo_succ_retry fn attempt fuel e h hr] at h2
        rcases Nat.eq_or_lt_of_le h1 with rfl | hlt
        · exact ⟨e, h, hr⟩
        · exact ih (attempt + 1) i hlt h2
      | false =>
        rw [withRetriesGo_succ_stop fn attempt fuel e h hr] at h2
        simp at h2
        omega

theorem withRetriesGo_last_ok (fn : Nat → Attempt α) (fuel : Nat) :
    ∀ attempt v, (withRetriesGo fn attempt fuel).1 = .ok v →
      fn ((withRetriesGo fn attempt fuel).2 - 1) = .ok v := by
  induction fuel with
  | zero =>
    intro attempt v hv
    cases h : fn attempt with
    | ok w => rw [withRetriesGo_zero_ok fn attempt w h] at hv ⊢; simp_all
    | err e => rw [withRetriesGo_zero_err fn attempt e h] at hv; simp at hv
  | succ fuel ih =>
    intro attempt v hv
    cases h : fn attempt with
    | ok w => rw [withRetriesGo_succ_ok fn attempt fuel w h] at hv ⊢; simp_all
    | err e =>
      cases hr : shouldRetry e with
      | true =>
        rw [withRetriesGo_succ_retry fn attempt fuel e h hr] at hv ⊢
        exact ih (attempt + 1) v hv
      | false =>
        rw [withRetriesGo_succ_stop fn attempt fuel e h hr] at hv
        simp at hv

theorem withRetriesGo_last_err (fn : Nat → Attempt α) (fuel : Nat) :
    ∀ attempt e, (withRetriesGo fn attempt fuel).1 = .error e →
      fn ((withRetriesGo fn attempt fuel).2 - 1) = .err e ∧
        (shouldRetry e = false ∨ (withRetriesGo fn attempt fuel).2 = attempt + fuel + 1) := by
  induction fuel with
  | zero =>
    intro attempt e he
    cases h : fn attempt with
    | ok w => rw [withRetriesGo_zero_ok fn attempt w h] at he; simp at he
    | err e2 =>
      rw [withRetriesGo_zero_err fn attempt e2 h] at he ⊢
      simp at he
      subst he
      simp [h]
  | succ fuel ih =>
    intro attempt e he
    cases h : fn attempt with
    | ok w => rw [withRetriesGo_succ_ok fn attempt fuel w h] at he; simp at he
    | err e2 =>
      cases hr : shouldRetry e2 with
      | true =>
        rw [withRetriesGo_succ_retry fn attempt fuel e2 h hr] at he ⊢
        have h3 := ih (attempt + 1) e he
        refine ⟨h3.1, ?_⟩
        rcases h3.2 with h2 | h2
        · exact Or.inl h2
        · right
          omega
      | false =>
        rw [withRetriesGo_succ_stop fn attempt fuel e2 h hr] at he ⊢
        simp at he
        subst he
        simp [h, hr]

/-- C1: the resilient request wrapper makes at most `retries + 1`
attempts; every attempt before the last failed with a retryable error
(network failure, abort, or 429/500/502/503/504); the last attempt either
succeeded, failed non-retryably (surfaced immediately with no further
attempt), or failed retryably at the attempt cap.  Concretely, with
`retries = 2` a transport failing twice with 503 then succeeding yields
the success after exactly 3 attempts, while a transport always answering
404 causes exactly 1 attempt before the error is thrown. -/
theorem c1_retry_policy :
    (∀ (α : Type) (fn : Nat → Attempt α) (retries : Nat),
      1 ≤ (withRetries fn retries).2 ∧
      (withRetries fn retries).2 ≤ retries + 1 ∧
      (∀ i, i + 1 < (withRetries fn retries).2 →
        ∃ e, fn i = .err e ∧ shouldRetry e = true) ∧
      (∀ v, (withRetries fn retries).1 = .ok v →
        fn ((withRetries fn retries).2 - 1) = .ok v) ∧
      (∀ e, (withRetries fn retries).1 = .error e →
        fn ((withRetries fn retries).2 - 1) = .err e ∧
          (shouldRetry e = false ∨ (withRetries fn retries).2 = retries + 1))) ∧
    fetchWithRetry (fun i => if i ≤ 1 then FetchStep.response 503 0 else FetchStep.response 200 0) 2
      = (.ok 0, 3) ∧
    fetchWithRetry (fun _ => FetchStep.response 404 (0 : Nat)) 2
      = (.error ⟨false, some 404⟩, 1) := by
  refine ⟨?_, by rfl, by rfl⟩
  intro α fn retries
  unfold withRetries
  refine ⟨withRetriesGo_ge fn retries 0, ?_, ?_, ?_, ?_⟩
  · have h := withRetriesGo_le fn retries 0
    omega
  · intro i hi
    exact withRetriesGo_mid fn retries 0 i (Nat.zero_le i) hi
  · exact withRetriesGo_last_ok fn retries 0
  · intro e he
    have h := withRetriesGo_last_err fn retries 0 e he
    refine ⟨h.1, ?_⟩
    rcases h.2 with h2 | h2
    · exact Or.inl h2
    · right
      omega

/-- Witness for C1: the general characterization applied to the concrete
503-503-200 transport at `retries = 2`. -/
theorem c1_retry_policy_witness :
    1 ≤ (withRetries (fun i => stepToAttempt
        (if i ≤ 1 then FetchStep.response 503 0 else FetchStep.response 200 (0 : Nat))) 2).2 ∧
    (∃ e, stepToAttempt
        (if 1 ≤ 1 then FetchStep.response 503 0 else FetchStep.response 200 (0 : Nat)) = .err e ∧
      shouldRetry e = true) := by
  refine ⟨(c1_retry_policy.1 Nat _ 2).1, ?_⟩
  have := (c1_retry_policy.1 Nat
    (fun i => stepToAttempt
      (if i ≤ 1 then FetchStep.response 503 0 else FetchStep.response 200 (0 : Nat))) 2).2.2.1
  exact this 1 (by decide)

theorem chunk_cons (a : α) (rest : List α) (n : Nat) :
    chunk (a :: rest) (n + 1) =
      (a :: rest).take (n + 1) :: chunk ((a :: rest).drop (n + 1)) (n + 1) := by
  simp only [chunk]

theorem chunk_flatten (n : Nat) (hn : 0 < n) (arr : List α) :
    (chunk arr n).flatten = arr := by
  obtain ⟨len, hlen⟩ : ∃ len, arr.length ≤ len := ⟨arr.length, Nat.le_refl _⟩
  induction len generalizing arr with
  | zero =>
    have h0 : arr = [] := List.eq_nil_of_length_eq_zero (Nat.le_zero.mp hlen)
    subst h0
    simp [chunk]
  | succ len ih =>
    match arr with
    | [] => simp [chunk]
    | a :: rest =>
      match n, hn with
      | n + 1, _ =>
        rw [chunk_cons]
        have hd : ((a :: rest).drop (n + 1)).length ≤ len := by
          simp only [List.length_drop]
          simp at hlen ⊢
          omega
        simp only [List.flatten_cons, ih _ hd]
        exact List.take_append_drop (n + 1) (a :: rest)

theorem chunk_pieces (n : Nat) (hn : 0 < n) (arr : List α) :
    ∀ b ∈ chunk arr n, b ≠ [] ∧ b.length ≤ n := by
  obtain ⟨len, hlen⟩ : ∃ len, arr.length ≤ len := ⟨arr.length, Nat.le_refl _⟩
  induction len generalizing arr with
  | zero =>
    have h0 : arr = [] := List.eq_nil_of_length_eq_zero (Nat.le_zero.mp hlen)
    subst h0
    simp [chunk]
  | succ len ih =>
    match arr with
    | [] => simp [chunk]
    | a :: rest =>
      match n, hn with
      | n + 1, _ =>
        rw [chunk_cons]
        intro b hb
        rcases List.mem_cons.mp hb with rfl | hb2
        · constructor
          · simp
          · simp
        · have hd : ((a :: rest).drop (n + 1)).length ≤ len := by
            simp only [List.length_drop]
            simp at hlen ⊢
            omega
          exact ih _ hd b hb2

/-- C10: for every array and every chunk size `n > 0`, the pieces of
`chunk arr n` concatenate in order back to exactly `arr`, and every piece
is non-empty of length at most `n` — so the chunking step of a broadcast
drops, duplicates and reorders nothing. -/
theorem c10_chunk_partition :
    ∀ (α : Type) (n : Nat), 0 < n → ∀ arr : List α,
      (chunk arr n).flatten = arr ∧ ∀ b ∈ chunk arr n, b ≠ [] ∧ b.length ≤ n :=
  fun _ n hn arr => ⟨chunk_flatten n hn arr, chunk_pieces n hn arr⟩

/-- Witness for C10: the partition property at a concrete roster and the
batch size the broadcast path uses. -/
theorem c10_chunk_partition_witness :
    (chunk [1, 2, 3, 4, 5] 2).flatten = ([1, 2, 3, 4, 5] : List Int) ∧
      ∀ b ∈ chunk ([1, 2, 3, 4, 5] : List Int) 2, b ≠ [] ∧ b.length ≤ 2 :=
  c10_chunk_partition Int 2 (by decide) [1, 2, 3, 4, 5]

/-- C5: every batch the broadcast path builds from a roster of at most
10,000 ids fits under `MAX_PER_REQUEST`, and `postConversation` rejects a
recipient list over the cap as a local error with zero network
attempts. -/
theorem c5_batch_cap :
    (∀ ids : List Int, ids.length ≤ 10000 →
      ∀ b ∈ planBatches ids, b.length ≤ MAX_PER_REQUEST) ∧
    (∀ (α : Type) (ids : List Int) (tok : String)
        (transport : Nat → String → Attempt α) (latest : Nat → Option String),
      MAX_PER_REQUEST < ids.length →
      postConversation ids tok transport latest = (.error .tooMany, 0)) := by
  constructor
  · intro ids _ b hb
    exact (chunk_pieces MAX_PER_REQUEST (by decide) (uniqueInts ids) b hb).2
  · intro α ids tok transport latest hlen
    have hne : ids ≠ [] := by
      intro h0
      rw [h0] at hlen
      simp [MAX_PER_REQUEST] at hlen
    unfold postConversation
    rw [if_neg hne, if_pos hlen]

/-- Witness for C5: a concrete oversized recipient list (91 ids) is
rejected locally with no attempt, and a concrete roster is cut into
under-cap batches. -/
theorem c5_batch_cap_witness :
    postConversation (List.range 91 |>.map Int.ofNat) "tok"
        (fun _ _ => (.ok 0 : Attempt Nat)) (fun _ => none) = (.error .tooMany, 0) ∧
    ∀ b ∈ planBatches (List.range 91 |>.map Int.ofNat), b.length ≤ MAX_PER_REQUEST := by
  constructor
  · exact c5_batch_cap.2 Nat _ "tok" _ _ (by decide)
  · exact c5_batch_cap.1 _ (by decide)

theorem observer_inv (evs : List ObsEvent) :
    ∀ st : CsrfCache,
      (∀ h, st.csrfHeader = some h → h.value ≠ "") →
      (∀ c, st.csrfCookie = some c → c.value ≠ "") →
      (∀ h, (evs.foldl observerStep st).csrfHeader = some h → h.value ≠ "") ∧
      (∀ c, (evs.foldl observerStep st).csrfCookie = some c → c.value ≠ "") := by
  induction evs with
  | nil => intro st hH hC; exact ⟨hH, hC⟩
  | cons ev rest ih =>
    intro st hH hC
    apply ih
    · intro h hh
      cases ev with
      | headerSeen v t =>
        by_cases hv : v = ""
        · simp [observerStep, hv] at hh
          exact hH h hh
        · simp [observerStep, hv] at hh
          rw [← hh]
          exact hv
      | cookieSeen v t =>
        by_cases hv : v = ""
        · simp [observerStep, hv] at hh
          exact hH h hh
        · simp [observerStep, hv] at hh
          exact hH h hh
      | clearCache => simp [observerStep] at hh
    · intro c hc
      cases ev with
      | headerSeen v t =>
        by_cases hv : v = ""
        · simp [observerStep, hv] at hc
          exact hC c hc
        · simp [observerStep, hv] at hc
          exact hC c hc
      | cookieSeen v t =>
        by_cases hv : v = ""
        · simp [observerStep, hv] at hc
          exact hC c hc
        · simp [observerStep, hv] at hc
          rw [← hc]
          exact hv
      | clearCache => simp [observerStep] at hc

/-- C4: in every cache state the observer can reach, the GET_LATEST_CSRF
handler returns the Header-source value whenever a header token is
cached (whatever the cookie slot holds), the Cookie-source value when
only a cookie token is cached, and null when neither source has been
observed. -/
theorem c4_getLatest_resolution :
    ∀ evs : List ObsEvent,
      (∀ h, (runObserver evs).csrfHeader = some h →
        getLatestCsrf (runObserver evs) = some h.value) ∧
      ((runObserver evs).csrfHeader = none →
        ∀ c, (runObserver evs).csrfCookie = some c →
          getLatestCsrf (runObserver evs) = some c.value) ∧
      ((runObserver evs).csrfHeader = none → (runObserver evs).csrfCookie = none →
        getLatestCsrf (runObserver evs) = none) := by
  intro evs
  have hinv := observer_inv evs ⟨none, none⟩ (by simp) (by simp)
  rw [runObserver] at *
  refine ⟨?_, ?_, ?_⟩
  · intro h hh
    unfold getLatestCsrf
    rw [hh]
    simp [hinv.1 h hh]
  · intro hnone c hc
    unfold getLatestCsrf cookieChosen
    rw [hnone, hc]
    simp [hinv.2 c hc]
  · intro hnone hcnone
    unfold getLatestCsrf cookieChosen
    rw [hnone, hcnone]

/-- Witness for C4: the three resolution cases at concrete event
sequences (header and cookie observed, only cookie observed, nothing
observed). -/
theorem c4_getLatest_resolution_witness :
    getLatestCsrf (runObserver
      [.headerSeen "hTok" 1, .cookieSeen "cTok" 2]) = some "hTok" ∧
    getLatestCsrf (runObserver [.cookieSeen "cTok" 2]) = some "cTok" ∧
    getLatestCsrf (runObserver [.headerSeen "hTok" 1, .clearCache]) = none := by
  refine ⟨?_, ?_, ?_⟩
  · exact (c4_getLatest_resolution
      [.headerSeen "hTok" 1, .cookieSeen "cTok" 2]).1 ⟨"hTok", 1⟩ (by decide)
  · exact (c4_getLatest_resolution
      [.cookieSeen "cTok" 2]).2.1 (by decide) ⟨"cTok", 2⟩ (by decide)
  · exact (c4_getLatest_resolution
      [.headerSeen "hTok" 1, .clearCache]).2.2 (by decide) (by decide)

/-- C8: when the requested term filter does not parse into both a season
and a year, `isTermMatch` returns true for every course — an unparseable
filter passes everything. -/
theorem c8_unparseable_filter_passes :
    ∀ (course : Course) (wantedLabel : String),
      (parseSeasonYear wantedLabel).season = none ∨
        (parseSeasonYear wantedLabel).year = none →
      isTermMatch course wantedLabel = true := by
  intro course wantedLabel hun
  unfold isTermMatch
  rcases hs : (parseSeasonYear wantedLabel).season with _ | s
  · simp [hs]
  · rcases hy : (parseSeasonYear wantedLabel).year with _ | y
    · simp [hs, hy]
    · rw [hs] at hun
      rw [hy] at hun
      simp at hun

/-- Witness for C8: the default popup label `"Ongoing Term"` parses to
neither season nor year and therefore matches an arbitrary course. -/
theorem c8_unparseable_filter_passes_witness :
    isTermMatch ⟨some "BIO 101", some "Weird Term", none, none, none⟩ "Ongoing Term" = true :=
  c8_unparseable_filter_passes ⟨some "BIO 101", some "Weird Term", none, none, none⟩
    "Ongoing Term" (by decide)

/-- C7 counterexample: the claim describes the key as the trimmed,
lowercased label with non-alphanumeric runs hyphenated and edge hyphens
stripped; on `"Spring 23"` the source first expands the two-digit year,
producing `"spring-2023"` where the described transform produces
`"spring-23"`. -/
theorem c7_termkey_counterexample :
    toTermKey "Spring 23" = "spring-2023" ∧
    specTermKey "Spring 23" = "spring-23" ∧
    toTermKey "Spring 23" ≠ specTermKey "Spring 23" := by
  refine ⟨by decide, by decide, by decide⟩

/-- C7 (amended): `toTermKey` is total and deterministic — every label,
including empty and unparseable ones, maps to some key and equal labels
map to equal keys; `"Spring 2023"` maps to `"spring-2023"`; and on every
label the spring-two-digit-year expansion leaves unchanged, the key is
exactly the trimmed, lowercased label with every non-alphanumeric run
replaced by a hyphen and edge hyphens stripped. -/
theorem c7_termkey_total_deterministic :
    (∀ l1 l2 : String, l1 = l2 → toTermKey l1 = toTermKey l2) ∧
    toTermKey "Spring 2023" = "spring-2023" ∧
    toTermKey "" = "" ∧
    (∀ label : String,
      replaceSpringYY (lowerL (trimL label.toList)) = lowerL (trimL label.toList) →
      toTermKey label = specTermKey label) := by
  refine ⟨fun l1 l2 h => by rw [h], by decide, by decide, ?_⟩
  intro label h
  unfold toTermKey specTermKey
  rw [h]

/-- Witness for C7: determinism and the spec-described shape at the
concrete label `"Fall 2025"`, which the spring expansion leaves
unchanged. -/
theorem c7_termkey_total_deterministic_witness :
    toTermKey "Fall 2025" = toTermKey "Fall 2025" ∧
    toTermKey "Fall 2025" = specTermKey "Fall 2025" := by
  refine ⟨c7_termkey_total_deterministic.1 "Fall 2025" "Fall 2025" rfl, ?_⟩
  exact c7_termkey_total_deterministic.2.2.2 "Fall 2025" (by decide)

theorem dedupFirst_mem (l : List Int) :
    ∀ (seen : List Int) (x : Int), x ∈ dedupFirst seen l ↔ x ∈ l ∧ x ∉ seen := by
  induction l with
  | nil => intro seen x; simp [dedupFirst]
  | cons a rest ih =>
    intro seen x
    unfold dedupFirst
    by_cases ha : a ∈ seen
    · rw [if_pos ha]
      rw [ih seen x]
      constructor
      · rintro ⟨h1, h2⟩
        exact ⟨List.mem_cons_of_mem a h1, h2⟩
      · rintro ⟨h1, h2⟩
        rcases List.mem_cons.mp h1 with rfl | h3
        · exact absurd ha h2
        · exact ⟨h3, h2⟩
    · rw [if_neg ha]
      constructor
      · intro h1
        rcases List.mem_cons.mp h1 with rfl | h3
        · exact ⟨List.mem_cons_self x rest, ha⟩
        · have := (ih (a :: seen) x).mp h3
          refine ⟨List.mem_cons_of_mem a this.1, ?_⟩
          intro hx
          exact this.2 (List.mem_cons_of_mem a hx)
      · rintro ⟨h1, h2⟩
        rcases List.mem_cons.mp h1 with rfl | h3
        · exact List.mem_cons_self x _
        · by_cases hxa : x = a
          · subst hxa
            exact List.mem_cons_self x _
          · apply List.mem_cons_of_mem
            rw [ih (a :: seen) x]
            refine ⟨h3, ?_⟩
            intro hx
            rcases List.mem_cons.mp hx with h4 | h4
            · exact hxa h4
            · exact h2 h4

theorem dedupFirst_nodup (l : List Int) :
    ∀ seen : List Int, (dedupFirst seen l).Nodup := by
  induction l with
  | nil => intro seen; simp [dedupFirst]
  | cons a rest ih =>
    intro seen
    unfold dedupFirst
    by_cases ha : a ∈ seen
    · rw [if_pos ha]
      exact ih seen
    · rw [if_neg ha]
      refine List.nodup_cons.mpr ⟨?_, ih (a :: seen)⟩
      intro hmem
      exact ((dedupFirst_mem rest (a :: seen) a).mp hmem).2 (List.mem_cons_self a seen)

/-- C9: the roster operation returns a duplicate-free list of numeric
student ids, never containing the caller's own id; an id is in the
output exactly when some fetched row carries it and survives the filter,
and the filter rejects every row flagged as the platform test student
(by `sis_user_id` or by name). -/
theorem c9_student_ids :
    ∀ (myId : Option Int) (rows : List CanvasUser),
      (fetchStudentUserIdsForCourse myId rows).Nodup ∧
      (∀ mid, myId = some mid → mid ∉ fetchStudentUserIdsForCourse myId rows) ∧
      (∀ x, x ∈ fetchStudentUserIdsForCourse myId rows ↔
        ∃ u ∈ rows, u.id = some x ∧ keepStudent myId u = true) ∧
      (∀ u, u.sis_user_id = some "test_student" → keepStudent myId u = false) ∧
      (∀ u n, u.name = some n → matchesTestStudent n = true →
        keepStudent myId u = false) := by
  intro myId rows
  have hmem : ∀ x, x ∈ fetchStudentUserIdsForCourse myId rows ↔
      ∃ u ∈ rows, u.id = some x ∧ keepStudent myId u = true := by
    intro x
    unfold fetchStudentUserIdsForCourse uniqueInts
    rw [dedupFirst_mem]
    simp only [List.mem_filterMap, List.mem_filter, List.not_mem_nil,
      not_false_eq_true, and_true]
    constructor
    · rintro ⟨u, ⟨hu, hk⟩, hid⟩
      exact ⟨u, hu, hid, hk⟩
    · rintro ⟨u, hu, hid, hk⟩
      exact ⟨u, ⟨hu, hk⟩, hid⟩
  refine ⟨?_, ?_, hmem, ?_, ?_⟩
  · exact dedupFirst_nodup _ []
  · rintro mid rfl hmem2
    obtain ⟨u, _, hid, hk⟩ := (hmem mid).mp hmem2
    unfold keepStudent at hk
    rw [hid] at hk
    simp at hk
  · intro u hsis
    unfold keepStudent
    rcases hid : u.id with _ | uid
    · rfl
    · simp [hsis]
  · intro u n hn htest
    unfold keepStudent
    rcases hid : u.id with _ | uid
    · rfl
    · simp [hn, htest]

/-- Witness for C9: on a concrete roster containing the caller (id 5), a
test-student row, a duplicated id and a non-numeric id, the caller id is
excluded and id 3 (a surviving row) is reported present. -/
theorem c9_student_ids_witness :
    (5 : Int) ∉ fetchStudentUserIdsForCourse (some 5)
      [⟨some 5, none, some "Me Myself"⟩, ⟨some 3, none, some "Alice A"⟩,
       ⟨some 3, none, some "Alice A"⟩, ⟨some 7, some "test_student", some "Test Student"⟩,
       ⟨none, none, some "Ghost"⟩] ∧
    (3 : Int) ∈ fetchStudentUserIdsForCourse (some 5)
      [⟨some 5, none, some "Me Myself"⟩, ⟨some 3, none, some "Alice A"⟩,
       ⟨some 3, none, some "Alice A"⟩, ⟨some 7, some "test_student", some "Test Student"⟩,
       ⟨none, none, some "Ghost"⟩] := by
  constructor
  · exact (c9_student_ids (some 5) _).2.1 5 rfl
  · refine ((c9_student_ids (some 5) _).2.2.1 3).mpr ?_
    refine ⟨⟨some 3, none, some "Alice A"⟩, by simp, by decide, by decide⟩

/-- C2 counterexample: part_005 `postConversation` with a transport that
rejects the first POST with 422 while the observer holds no token makes
exactly one attempt and escalates — it does not retry with a refreshed
token as the claim requires for every 422-rejected send. -/
theorem c2_stale_token_counterexample :
    postConversation5 (fun _ _ => (.err ⟨false, some 422⟩ : Attempt Nat)) none "tok"
        = (.error ⟨false, some 422⟩, 1) ∧
    (postConversation5 (fun _ _ => (.err ⟨false, some 422⟩ : Attempt Nat)) none "tok").2 ≠ 2 := by
  refine ⟨by rfl, by decide⟩

/-- C2 (amended): on a 422-rejected POST, part_005 `postConversation`
re-fetches the latest observer token and retries the same request exactly
once with it only when the observer yields a token different from the one
already used, escalating exactly when that retry fails; when no differing
token is available the 422 escalates immediately with no retry.  The
looped revision (part_006) instead treats 422 like a retryable fault:
when the first POST is 422-rejected it always makes a second attempt with
the re-fetched token (falling back to the original when none is cached)
and up to three attempts in total before escalating. -/
theorem c2_stale_token_retry :
    (∀ (α : Type) (transport : Nat → String → Attempt α) (latest : Option String)
        (tok : String) (e : JsError),
      transport 0 tok = .err e → e.status = some 422 →
      (∀ fresh, latest = some fresh → fresh ≠ tok →
        postConversation5 transport latest tok = (attemptResult (transport 1 fresh), 2)) ∧
      (latest = none ∨ latest = some tok →
        postConversation5 transport latest tok = (.error e, 1))) ∧
    (∀ (α : Type) (ids : List Int) (tok : String)
        (transport : Nat → String → Attempt α) (latest : Nat → Option String)
        (e : JsError) (v : α),
      ids ≠ [] → ids.length ≤ MAX_PER_REQUEST →
      transport 0 tok = .err e → e.status = some 422 →
      transport 1 ((latest 1).getD tok) = .ok v →
      postConversation ids tok transport latest = (.ok v, 2)) ∧
    (postConversation [(1 : Int)] "tok"
      (fun _ _ => (.err ⟨false, some 422⟩ : Attempt Nat)) (fun _ => none)).2 = 3 := by
  refine ⟨?_, ?_, by decide⟩
  · intro α transport latest tok e h0 h422
    constructor
    · intro fresh hl hne
      unfold postConversation5
      rw [h0]
      simp [h422, hl, hne]
    · intro hl
      rcases hl with rfl | rfl
      · unfold postConversation5
        rw [h0]
        simp [h422]
      · unfold postConversation5
        rw [h0]
        simp [h422]
  · intro α ids tok transport latest e v hne hlen h0 h422 h1
    unfold postConversation
    rw [if_neg hne, if_neg (by omega)]
    have ht0 : postAttemptToken latest tok 0 = tok := rfl
    have ht1 : postAttemptToken latest tok 1 = (latest 1).getD tok := rfl
    have h422b : (shouldRetry e || e.status == some 422) = true := by
      simp [h422]
    have hstep : postLoop transport latest tok 0 2 = (.ok v, 2) := by
      simp only [postLoop, ht0, ht1, h0, h1, h422b, if_true]
    rw [hstep]

/-- Witness for C2: both branches of the amended behaviour at concrete
transports — a differing fresh token is used for exactly one retry that
succeeds, and an unchanged fresh token escalates the 422 after one
attempt; the part_006 loop recovers on its second attempt with the
re-fetched token. -/
theorem c2_stale_token_retry_witness :
    postConversation5
        (fun i _ => if i = 0 then (.err ⟨false, some 422⟩ : Attempt Nat) else .ok 9)
        (some "fresh") "tok" = (.ok 9, 2) ∧
    postConversation5 (fun _ _ => (.err ⟨false, some 422⟩ : Attempt Nat))
        (some "tok") "tok" = (.error ⟨false, some 422⟩, 1) ∧
    postConversation [(1 : Int)] "tok"
        (fun i _ => if i = 0 then (.err ⟨false, some 422⟩ : Attempt Nat) else .ok 9)
        (fun _ => some "fresh") = (.ok 9, 2) := by
  refine ⟨?_, ?_, ?_⟩
  · exact ((c2_stale_token_retry.1 Nat _ (some "fresh") "tok" ⟨false, some 422⟩
      rfl rfl).1 "fresh" rfl (by decide))
  · exact ((c2_stale_token_retry.1 Nat _ (some "tok") "tok" ⟨false, some 422⟩
      rfl rfl).2 (Or.inr rfl))
  · exact (c2_stale_token_retry.2.1 Nat [1] "tok" _ _ ⟨false, some 422⟩ 9
      (by decide) (by decide) rfl rfl rfl)

/-- C3: when the batch-sending step of a course broadcast fails, the
orchestrator releases every claim it won in that run — a release is
attempted for each won claim id, in order, and the run outcome is
entirely independent of which individual releases succeed (release
failures are swallowed) — and then surfaces the triggering error to the
caller. -/
theorem c3_release_on_send_failure :
    ∀ (env : PopupEnv) (sections : List Int) (dbRows : List (Option Int))
      (tok : String) (msg : Option String),
      env.sections = some sections → env.dbRows = some dbRows →
      env.csrf = some tok → env.sendResp = .failRes msg →
      remainingSectionIds sections dbRows ≠ [] →
      wonClaims env.claimFn (remainingSectionIds sections dbRows) ≠ [] →
      handleSendLinkForCourse env =
        (.sendFailed msg,
          ⟨true,
            (wonClaims env.claimFn (remainingSectionIds sections dbRows)).map
              (fun c => c.2), []⟩) ∧
      (∀ rel : Nat → Bool,
        handleSendLinkForCourse { env with releaseFn := rel } =
          handleSendLinkForCourse env) := by
  intro env sections dbRows tok msg hs hd hc hsend hrem hwins
  constructor
  · simp only [handleSendLinkForCourse, hs, hd, hc, hsend]
    rw [if_neg hrem, if_neg hwins]
  · intro rel
    rfl

/-- Witness for C3: a concrete run that wins the claims for sections 10
and 20, has a token, and whose send fails; both claim ids are released
and the error surfaces, for both a succeeding and a throwing release
RPC. -/
theorem c3_release_on_send_failure_witness :
    handleSendLinkForCourse
        ⟨some [10, 20], some [], fun sid => .row sid.toNat false, some "tok",
          .failRes (some "boom"), fun _ => true, fun _ => false⟩ =
      (.sendFailed (some "boom"), ⟨true, [10, 20], []⟩) ∧
    handleSendLinkForCourse
        ⟨some [10, 20], some [], fun sid => .row sid.toNat false, some "tok",
          .failRes (some "boom"), fun _ => true, fun _ => true⟩ =
      (.sendFailed (some "boom"), ⟨true, [10, 20], []⟩) := by
  have h := c3_release_on_send_failure
    ⟨some [10, 20], some [], fun sid => .row sid.toNat false, some "tok",
      .failRes (some "boom"), fun _ => true, fun _ => false⟩
    [10, 20] [] "tok" (some "boom") rfl rfl rfl rfl (by decide) (by decide)
  refine ⟨h.1, ?_⟩
  rw [h.2 (fun _ => true)]
  exact h.1

/-- C6: when every unit of the course is already claimed or sent for the
term (the remaining set is empty), or when the run wins no claims (every
attempt lost or failed), `handleSendLinkForCourse` returns early with a
zero summary and the SEND_LINK_TO_COURSE message — the only path to the
messaging endpoint — is never dispatched. -/
theorem c6_zero_summary_no_send :
    ∀ (env : PopupEnv) (sections : List Int) (dbRows : List (Option Int)),
      env.sections = some sections → env.dbRows = some dbRows →
      (remainingSectionIds sections dbRows = [] →
        handleSendLinkForCourse env = (.alreadySentAll, ⟨false, [], []⟩) ∧
        runSummary (handleSendLinkForCourse env).1 = (0, 0) ∧
        (handleSendLinkForCourse env).2.sendCalled = false) ∧
      (remainingSectionIds sections dbRows ≠ [] →
        wonClaims env.claimFn (remainingSectionIds sections dbRows) = [] →
        handleSendLinkForCourse env = (.nothingToSend, ⟨false, [], []⟩) ∧
        runSummary (handleSendLinkForCourse env).1 = (0, 0) ∧
        (handleSendLinkForCourse env).2.sendCalled = false) := by
  intro env sections dbRows hs hd
  constructor
  · intro hrem
    have h : handleSendLinkForCourse env = (.alreadySentAll, ⟨false, [], []⟩) := by
      simp only [handleSendLinkForCourse, hs, hd]
      rw [if_pos hrem]
    rw [h]
    exact ⟨rfl, rfl, rfl⟩
  · intro hrem hwins
    have h : handleSendLinkForCourse env = (.nothingToSend, ⟨false, [], []⟩) := by
      simp only [handleSendLinkForCourse, hs, hd]
      rw [if_neg hrem, if_pos hwins]
    rw [h]
    exact ⟨rfl, rfl, rfl⟩

/-- Witness for C6: a course whose single section is already recorded as
sent returns the zero summary without sending, and a run that loses every
claim race (claim returns `already_exists`) does the same. -/
theorem c6_zero_summary_no_send_witness :
    handleSendLinkForCourse
        ⟨some [10], some [some 10], fun sid => .row sid.toNat false, some "tok",
          .okRes 150 2, fun _ => true, fun _ => true⟩ =
      (.alreadySentAll, ⟨false, [], []⟩) ∧
    handleSendLinkForCourse
        ⟨some [10], some [], fun _ => .row 7 true, some "tok",
          .okRes 150 2, fun _ => true, fun _ => true⟩ =
      (.nothingToSend, ⟨false, [], []⟩) := by
  constructor
  · exact ((c6_zero_summary_no_send
      ⟨some [10], some [some 10], fun sid => .row sid.toNat false, some "tok",
        .okRes 150 2, fun _ => true, fun _ => true⟩
      [10] [some 10] rfl rfl).1 (by decide)).1
  · exact ((c6_zero_summary_no_send
      ⟨some [10], some [], fun _ => .row 7 true, some "tok",
        .okRes 150 2, fun _ => true, fun _ => true⟩
      [10] [] rfl rfl).2 (by decide) (by decide)).1

end CanvasMessenger
